import Mathlib

/-!
Shallow embedding of the libki pclass engine: the type-erasure/casting core
(Value, ValueCaster) and the reflection-driven type descriptors (Type,
IClassType, assert_type_match), together with the primitive bit-width codec
and the property iteration loops of IClassType.
-/

/-- Runtime type identity token, standing for the hash_code of a
std::type_info object. -/
abbrev TypeId := Nat

/-- Contents of one erased storage slot. The engine treats stored payloads
opaquely (only registered conversion functions inspect them), so payloads are
abstracted as integers. -/
abbrev RtVal := Int

/-- Error values raised by the engine. The typeMismatch constructor models the
runtime_error whose message is built by assert_type_match and names both types
together with the allow_inheritance flag; castError models ki::cast_error
carrying both type identities; badCast models the std::bad_cast thrown by a
failed dynamic_cast on a reference; runtimeError models ki::runtime_error with
its message. -/
inductive KiErr where
  | runtimeError (msg : String)
  | typeMismatch (expected actual : String) (allow_inheritance : Bool)
  | castError (src dest : TypeId)
  | badCast
deriving DecidableEq

/-- The coarse kind discriminator of ki::pclass::Type. -/
inductive Kind where
  | NONE
  | CLASS
  | PRIMITIVE
  | ENUM
deriving DecidableEq

/-- A type descriptor (ki::pclass::Type). The nullable m_base_class pointer of
IClassType is represented structurally: root has no base (m_base_class is
null), derived carries its base descriptor. The isClassType field records
whether the underlying object is an IClassType instance, i.e. whether a
dynamic_cast to IClassType succeeds on it. Structural equality models pointer
identity of descriptors. The name hash is omitted because no claim settled
here depends on it. -/
inductive TypeDesc where
  | root (name : String) (kind : Kind) (isClassType : Bool)
  | derived (name : String) (kind : Kind) (isClassType : Bool) (base : TypeDesc)
deriving DecidableEq

def TypeDesc.name : TypeDesc → String
  | .root n _ _ => n
  | .derived n _ _ _ => n

def TypeDesc.kind : TypeDesc → Kind
  | .root _ k _ => k
  | .derived _ k _ _ => k

def TypeDesc.isClassType : TypeDesc → Bool
  | .root _ _ c => c
  | .derived _ _ c _ => c

/-- The m_base_class pointer: none for a root descriptor, some base for a
derived one. -/
def TypeDesc.base : TypeDesc → Option TypeDesc
  | .root _ _ _ => none
  | .derived _ _ _ b => some b

/-- IClassType::inherits. Returns true when the candidate is the requested
descriptor itself, otherwise walks down the single-parent base chain, and
returns false at the bottom of the chain. -/
def TypeDesc.inherits : TypeDesc → TypeDesc → Bool
  | .root n k c, ancestor =>
      if TypeDesc.root n k c = ancestor then true
      else false
  | .derived n k c b, ancestor =>
      if TypeDesc.derived n k c b = ancestor then true
      else TypeDesc.inherits b ancestor

/-- The base chain of a descriptor: the descriptor itself followed by all of
its ancestors, in order. -/
def TypeDesc.baseChain : TypeDesc → List TypeDesc
  | .root n k c => [TypeDesc.root n k c]
  | .derived n k c b => TypeDesc.derived n k c b :: TypeDesc.baseChain b

/-- Length of the base chain below a descriptor. -/
def TypeDesc.depth : TypeDesc → Nat
  | .root _ _ _ => 0
  | .derived _ _ _ b => TypeDesc.depth b + 1

/-- Well-formedness of a descriptor as produced by the repository itself:
only IClassType instances set their kind to CLASS, and every IClassType
instance does so in its constructor. -/
def TypeDesc.wf (t : TypeDesc) : Prop := t.kind = Kind.CLASS ↔ t.isClassType = true

/-- The IClassType constructor. Sets the kind to CLASS; when a base class is
given it first requires the base to have kind CLASS and then requires the
dynamic_cast of the base to IClassType to succeed, raising a runtime_error
otherwise; without a base the base pointer is null. -/
def IClassType.construct (name : String) (base_class : Option TypeDesc) :
    Except KiErr TypeDesc :=
  match base_class with
  | some b =>
      if b.kind ≠ Kind.CLASS then
        Except.error (KiErr.runtimeError "base_class must be a class type!")
      else if b.isClassType = false then
        Except.error (KiErr.runtimeError "base_class must inherit IClassType!")
      else
        Except.ok (TypeDesc.derived name Kind.CLASS true b)
  | none => Except.ok (TypeDesc.root name Kind.CLASS true)

/-- The tail of assert_type_match after the inheritance branch: the exact
identity comparison of the two descriptors, and the construction of the
type-mismatch error naming both types. -/
def assert_type_match_tail (expected actual : TypeDesc)
    (allow_inheritance : Bool) : Except KiErr Unit :=
  if expected = actual then Except.ok ()
  else Except.error (KiErr.typeMismatch expected.name actual.name allow_inheritance)

/-- ki::pclass::assert_type_match. When inheritance is allowed and the
expected type has kind CLASS, the actual type is first cast by reference to
IClassType (throwing std::bad_cast when the actual type is not an IClassType
instance) and checked via inherits; otherwise, and when the inheritance check
does not succeed, the two descriptors are compared for identity and a
type-mismatch error naming both types is raised on disagreement. -/
def assert_type_match (expected actual : TypeDesc)
    (allow_inheritance : Bool) : Except KiErr Unit :=
  if allow_inheritance = true ∧ expected.kind = Kind.CLASS then
    if actual.isClassType then
      if actual.inherits expected then Except.ok ()
      else assert_type_match_tail expected actual allow_inheritance
    else Except.error KiErr.badCast
  else assert_type_match_tail expected actual allow_inheritance

theorem mem_baseChain_depth_le (c a : TypeDesc) (h : a ∈ c.baseChain) :
    a.depth ≤ c.depth := by
  induction c with
  | root n k cl =>
      simp only [TypeDesc.baseChain, List.mem_singleton] at h
      subst h
      exact Nat.le_refl _
  | derived n k cl b ih =>
      simp only [TypeDesc.baseChain, List.mem_cons] at h
      rcases h with h | h
      · subst h
        exact Nat.le_refl _
      · exact Nat.le_trans (ih h) (Nat.le_succ _)

theorem inherits_iff_mem_baseChain (c a : TypeDesc) :
    c.inherits a = true ↔ a ∈ c.baseChain := by
  induction c with
  | root n k cl =>
      simp only [TypeDesc.inherits, TypeDesc.baseChain, List.mem_singleton]
      split
      · rename_i h
        simp [h]
      · rename_i h
        simp only [Bool.false_eq_true, false_iff]
        exact fun hh => h hh.symm
  | derived n k cl b ih =>
      simp only [TypeDesc.inherits, TypeDesc.baseChain, List.mem_cons]
      split
      · rename_i h
        simp [h]
      · rename_i h
        simp only [ih]
        constructor
        · exact fun hm => Or.inr hm
        · rintro (hm | hm)
          · exact absurd hm.symm h
          · exact hm

theorem inherits_self (t : TypeDesc) : t.inherits t = true := by
  cases t <;> simp [TypeDesc.inherits]

/-- A wrapper around an erased storage slot that ensures type safety
(ki::pclass::Value). The val field is the pointee of m_value_ptr, owned is
m_ptr_is_owned, and type_hash is m_type_hash. -/
structure Value where
  val : RtVal
  owned : Bool
  type_hash : TypeId
deriving DecidableEq

/-- Value::make_value. Copies the given value onto freshly owned storage. -/
def Value.make_value (t : TypeId) (v : RtVal) : Value :=
  { val := v, owned := true, type_hash := t }

/-- Value::make_reference. Wraps an existing storage location without
taking ownership. -/
def Value.make_reference (t : TypeId) (v : RtVal) : Value :=
  { val := v, owned := false, type_hash := t }

/-- Value::is. Compares the held type hash with the requested type hash. -/
def Value.is (v : Value) (T : TypeId) : Bool :=
  v.type_hash == T

/-- Value::is_reference. A Value that does not own its pointer is a
reference. -/
def Value.is_reference (v : Value) : Bool :=
  !v.owned

/-- One registered caster: a detail::value_caster instance. The src field is
the source type the caster was instantiated for (the SrcT the implementation
reads the incoming value with), and fn abstracts its cast_value conversion
function, which is total over the source domain. -/
structure CasterEntry where
  src : TypeId
  fn : RtVal → RtVal

/-- The m_casts table of one ValueCaster: destination type hash to caster. -/
abbrev CastTable := List (TypeId × CasterEntry)

/-- The process-wide s_caster_lookup registry: source type hash to the
ValueCaster instance (its m_casts table) responsible for that source type.
The m_src_type field of each ValueCaster equals its key, as every instance is
created by ValueCaster::get with the matching type. -/
structure Registry where
  tables : List (TypeId × CastTable)

/-- Lookup of the ValueCaster instance for a source type in s_caster_lookup,
returning none when no instance exists yet. -/
def findTable? (reg : Registry) (src : TypeId) : Option CastTable :=
  (reg.tables.find? (fun p => p.1 == src)).map (fun p => p.2)

/-- The m_casts table a Value holds through its m_caster pointer: since
ValueCaster::get creates an empty instance on first use, a missing table is
the empty table. -/
def getCasts (reg : Registry) (src : TypeId) : CastTable :=
  (findTable? reg src).getD []

/-- Lookup of the caster registered for a destination type in an m_casts
table. -/
def lookupCast (casts : CastTable) (dest : TypeId) : Option CasterEntry :=
  (casts.find? (fun p => p.1 == dest)).map (fun p => p.2)

/-- The caster currently registered for a (source, destination) pair. -/
def lookupCaster (reg : Registry) (src dest : TypeId) : Option CasterEntry :=
  lookupCast (getCasts reg src) dest

/-- ValueCaster::add_caster. When an entry for the destination type already
exists it is deleted and replaced; otherwise the new caster is added. -/
def add_caster : CastTable → TypeId → CasterEntry → CastTable
  | [], dest, e => [(dest, e)]
  | (d, f) :: rest, dest, e =>
      if d = dest then (dest, e) :: rest
      else (d, f) :: add_caster rest dest e

/-- Update of s_caster_lookup at one source key, creating the entry when it
is absent (as ValueCaster::get does). -/
def setTable : List (TypeId × CastTable) → TypeId → CastTable → List (TypeId × CastTable)
  | [], src, t => [(src, t)]
  | (s, u) :: rest, src, t =>
      if s = src then (src, t) :: rest
      else (s, u) :: setTable rest src t

/-- ValueCaster::declare. Fetches (creating on demand) the ValueCaster
instance for the source type and registers the value_caster instance for the
destination type in its m_casts table, replacing any prior entry. -/
def ValueCaster.declare (reg : Registry) (src dest : TypeId) (e : CasterEntry) : Registry :=
  { tables := setTable reg.tables src (add_caster (getCasts reg src) dest e) }

/-- detail::value_caster for a (SrcT, DestT) pair: the default primary
template whose cast_value performs static_cast from SrcT to DestT. The native
conversion itself is abstracted as the function conv. -/
def value_caster_mk (src : TypeId) (conv : RtVal → RtVal) : CasterEntry :=
  { src := src, fn := conv }

/-- detail::value_caster_impl::cast. Reads the incoming Value with
Value::get at the source type of the caster (raising the get runtime_error on
a held-type mismatch), applies cast_value, and wraps the result with
Value::make_value at the destination type, so every successful cast yields a
new owning Value. -/
def invoke_caster (dest : TypeId) (e : CasterEntry) (v : Value) : Except KiErr Value :=
  if v.type_hash == e.src then
    Except.ok (Value.make_value dest (e.fn v.val))
  else
    Except.error (KiErr.runtimeError "Invalid call to Value::get<T>.")

/-- ValueCaster::cast_value. Looks up the caster registered for the
destination type in the m_casts table of this ValueCaster instance and
invokes it; raises ki::cast_error carrying m_src_type and the destination
type when no caster is registered for the pair. -/
def ValueCaster.cast_value (src_type : TypeId) (casts : CastTable)
    (dest : TypeId) (v : Value) : Except KiErr Value :=
  match lookupCast casts dest with
  | some e => invoke_caster dest e v
  | none => Except.error (KiErr.castError src_type dest)

/-- Value::as. When the held type already is the requested type, returns a
new owning Value copying the held value; otherwise delegates to the
cast_value of the m_caster table of the held type. -/
def Value.as (reg : Registry) (T : TypeId) (v : Value) : Except KiErr Value :=
  if v.type_hash == T then
    Except.ok (Value.make_value T v.val)
  else
    ValueCaster.cast_value v.type_hash (getCasts reg v.type_hash) T v

/-- The static ValueCaster::cast overload taking a std::type_info source:
looks the source type up in s_caster_lookup and delegates to cast_value,
raising ki::cast_error when no ValueCaster instance exists for the source
type at all. -/
def ValueCaster.cast_by_src (reg : Registry) (src dest : TypeId) (v : Value) :
    Except KiErr Value :=
  match findTable? reg src with
  | some casts => ValueCaster.cast_value src casts dest v
  | none => Except.error (KiErr.castError src dest)

/-- The static two-type ValueCaster::cast overload: first declares the
default value_caster for the pair (replacing any prior entry), then fetches
the ValueCaster instance for the source type and casts through it. Returns
the updated registry together with the result. -/
def ValueCaster.cast (reg : Registry) (src dest : TypeId)
    (conv : RtVal → RtVal) (v : Value) : Registry × Except KiErr Value :=
  let reg2 := ValueCaster.declare reg src dest (value_caster_mk src conv)
  (reg2, ValueCaster.cast_value src (getCasts reg2 src) dest v)

/-- Value::get, modelled as a state transformer on the Value: the C++ method
returns a typed borrow of the held storage and leaves the Value untouched on
every path, raising a runtime_error when the held type differs from the
requested one. -/
def Value.get (T : TypeId) (v : Value) : Except KiErr RtVal × Value :=
  if !(v.is T) then
    (Except.error (KiErr.runtimeError "Invalid call to Value::get<T>."), v)
  else
    (Except.ok v.val, v)

/-- Value::release. Refuses on a reference Value, then refuses on a held-type
mismatch, and otherwise hands the raw typed pointer to the caller while this
Value stops owning its storage. -/
def Value.release (T : TypeId) (v : Value) : Except KiErr (RtVal × Value) :=
  if v.is_reference then
    Except.error (KiErr.runtimeError "Cannot release ownership from a reference Value.")
  else if !(v.is T) then
    Except.error (KiErr.runtimeError "Invalid call to Value::get<T>.")
  else
    Except.ok (v.val, { v with owned := false })

/-- Modelled from the spec: the external bit-level stream capability of
section 6, whose own mechanics are out of scope. The tape records, in order,
each write as the pair (bit width, value); reading with a bit width consumes
the front record and yields the value previously written there when the
widths agree (the stream contract), and an unspecified zero otherwise. -/
abbrev Tape := List (Nat × Int)

/-- The write half of the bit-level stream contract:
write(value, bit_width). -/
def BitStream.write (stream : Tape) (value : Int) (bit_width : Nat) : Tape :=
  stream ++ [(bit_width, value)]

/-- The read half of the bit-level stream contract: read(bit_width), returning
the value and the remaining tape. -/
def BitStream.read (stream : Tape) (bit_width : Nat) : Int × Tape :=
  match stream with
  | [] => (0, [])
  | (w, v) :: rest => (if w = bit_width then v else 0, rest)

/-- PrimitiveTypeWriter::write_to for an integral ValueT: writes the value to
the stream with exactly the fixed per-type width bitsizeof of ValueT, passed
here as the bitsize argument. -/
def PrimitiveTypeWriter.write_to (bitsize : Nat) (stream : Tape) (value : Int) : Tape :=
  BitStream.write stream value bitsize

/-- PrimitiveTypeReader::read_from for an integral ValueT: reads a value from
the stream with exactly the fixed per-type width bitsizeof of ValueT, passed
here as the bitsize argument. -/
def PrimitiveTypeReader.read_from (bitsize : Nat) (stream : Tape) : Int × Tape :=
  BitStream.read stream bitsize

/-- Modelled from the spec: one declared property of a PropertyClass (the
IProperty interface and PropertyList container are not part of the sources
given here). A property carries its name, its public declaration flag, and
its write_value_to and read_value_from codecs acting on an abstract stream
state. -/
structure KiProperty (σ : Type) where
  name : String
  is_public : Bool
  write_value_to : σ → σ
  read_value_from : σ → σ

/-- Modelled from the spec: a PropertyClass instance exposes the ordered
collection of its declared properties, in insertion (declaration) order. -/
structure PropertyClassObj (σ : Type) where
  properties : List (KiProperty σ)

/-- IClassType::write_to. Obtains the property collection of the object and
writes each property in declaration order. -/
def IClassType.write_to {σ : Type} (object : PropertyClassObj σ) (stream : σ) : σ :=
  object.properties.foldl (fun st p => p.write_value_to st) stream

/-- IClassType::read_from. Obtains the property collection of the object and
reads each property in declaration order. -/
def IClassType.read_from {σ : Type} (object : PropertyClassObj σ) (stream : σ) : σ :=
  object.properties.foldl (fun st p => p.read_value_from st) stream

/-- An instrumented property over a trace stream: its writer and its reader
both append the property name to the trace, so the trace left behind is
exactly the sequence of properties visited. -/
def traceProp (n : String) : KiProperty (List String) :=
  { name := n
    is_public := true
    write_value_to := fun tr => tr ++ [n]
    read_value_from := fun tr => tr ++ [n] }

theorem lookupCast_add_self (casts : CastTable) (dest : TypeId) (e : CasterEntry) :
    lookupCast (add_caster casts dest e) dest = some e := by
  induction casts with
  | nil => simp [add_caster, lookupCast, List.find?]
  | cons hd tl ih =>
      obtain ⟨d, f⟩ := hd
      by_cases hd : d = dest
      · subst hd
        simp [add_caster, lookupCast, List.find?]
      · simp only [add_caster, if_neg hd]
        simpa [lookupCast, List.find?, (by simpa using hd : (d == dest) = false)] using ih

theorem lookupCast_add_other (casts : CastTable) (dest d2 : TypeId) (e : CasterEntry)
    (h : d2 ≠ dest) :
    lookupCast (add_caster casts dest e) d2 = lookupCast casts d2 := by
  induction casts with
  | nil =>
      simp [add_caster, lookupCast, List.find?,
        (by simpa using fun hh => h hh.symm : (dest == d2) = false)]
  | cons hd tl ih =>
      obtain ⟨d, f⟩ := hd
      by_cases hd : d = dest
      · subst hd
        simp [add_caster, lookupCast, List.find?,
          (by simpa using fun hh => h hh.symm : (d == d2) = false)]
      · simp only [add_caster, if_neg hd]
        by_cases hd2 : d = d2
        · subst hd2
          simp [lookupCast, List.find?]
        · simpa [lookupCast, List.find?, (by simpa using hd2 : (d == d2) = false)] using ih

theorem find?_setTable_self (tables : List (TypeId × CastTable)) (src : TypeId)
    (t : CastTable) :
    (setTable tables src t).find? (fun p => p.1 == src) = some (src, t) := by
  induction tables with
  | nil => simp [setTable, List.find?]
  | cons hd tl ih =>
      obtain ⟨s, u⟩ := hd
      by_cases hs : s = src
      · subst hs
        simp [setTable, List.find?]
      · simp only [setTable, if_neg hs]
        simpa [List.find?, (by simpa using hs : (s == src) = false)] using ih

theorem find?_setTable_other (tables : List (TypeId × CastTable)) (src s2 : TypeId)
    (t : CastTable) (h : s2 ≠ src) :
    (setTable tables src t).find? (fun p => p.1 == s2) =
      tables.find? (fun p => p.1 == s2) := by
  induction tables with
  | nil =>
      simp [setTable, List.find?,
        (by simpa using fun hh => h hh.symm : (src == s2) = false)]
  | cons hd tl ih =>
      obtain ⟨s, u⟩ := hd
      by_cases hs : s = src
      · subst hs
        simp [setTable, List.find?,
          (by simpa using fun hh => h hh.symm : (s == s2) = false)]
      · simp only [setTable, if_neg hs]
        by_cases hs2 : s = s2
        · subst hs2
          simp [List.find?]
        · simpa [List.find?, (by simpa using hs2 : (s == s2) = false)] using ih

theorem getCasts_declare_self (reg : Registry) (src dest : TypeId) (e : CasterEntry) :
    getCasts (ValueCaster.declare reg src dest e) src =
      add_caster (getCasts reg src) dest e := by
  simp [getCasts, findTable?, ValueCaster.declare, find?_setTable_self]

theorem getCasts_declare_other (reg : Registry) (src dest s2 : TypeId) (e : CasterEntry)
    (h : s2 ≠ src) :
    getCasts (ValueCaster.declare reg src dest e) s2 = getCasts reg s2 := by
  simp [getCasts, findTable?, ValueCaster.declare, find?_setTable_other _ _ _ _ h]

theorem lookupCaster_declare_self (reg : Registry) (src dest : TypeId) (e : CasterEntry) :
    lookupCaster (ValueCaster.declare reg src dest e) src dest = some e := by
  simp [lookupCaster, getCasts_declare_self, lookupCast_add_self]

theorem lookupCaster_declare_other (reg : Registry) (src dest s2 d2 : TypeId)
    (e : CasterEntry) (h : s2 ≠ src ∨ d2 ≠ dest) :
    lookupCaster (ValueCaster.declare reg src dest e) s2 d2 = lookupCaster reg s2 d2 := by
  by_cases hs : s2 = src
  · subst hs
    rcases h with h | h
    · exact absurd rfl h
    · simp [lookupCaster, getCasts_declare_self, lookupCast_add_other _ _ _ _ h]
  · simp [lookupCaster, getCasts_declare_other _ _ _ _ _ hs]

/-- The number of conversion functions the registry holds for one
(source, destination) pair. -/
def pairCount (reg : Registry) (src dest : TypeId) : Nat :=
  ((getCasts reg src).filter (fun p => p.1 == dest)).length

theorem filter_add_caster_self (casts : CastTable) (dest : TypeId) (e : CasterEntry)
    (h : (casts.filter (fun p => p.1 == dest)).length ≤ 1) :
    (add_caster casts dest e).filter (fun p => p.1 == dest) = [(dest, e)] := by
  induction casts with
  | nil => simp [add_caster]
  | cons hd tl ih =>
      obtain ⟨d, f⟩ := hd
      by_cases hd : d = dest
      · subst hd
        simp only [add_caster, if_pos rfl]
        simp only [List.filter_cons, beq_self_eq_true, if_pos] at h ⊢
        simp only [List.length_cons] at h
        have : tl.filter (fun p => p.1 == d) = [] := by
          apply List.eq_nil_of_length_eq_zero
          omega
        simp [this]
      · simp only [add_caster, if_neg hd]
        simp only [List.filter_cons, (by simpa using hd : (d == dest) = false)] at h ⊢
        simpa using ih h
  
theorem filter_add_caster_other (casts : CastTable) (dest d2 : TypeId) (e : CasterEntry)
    (h : d2 ≠ dest) :
    (add_caster casts dest e).filter (fun p => p.1 == d2) =
      casts.filter (fun p => p.1 == d2) := by
  induction casts with
  | nil =>
      simp [add_caster, (by simpa using fun hh => h hh.symm : (dest == d2) = false)]
  | cons hd tl ih =>
      obtain ⟨d, f⟩ := hd
      by_cases hd : d = dest
      · subst hd
        simp [add_caster, (by simpa using fun hh => h hh.symm : (d == d2) = false)]
      · simp only [add_caster, if_neg hd]
        simp [List.filter_cons, ih]

theorem pairCount_declare_le (reg : Registry) (src dest : TypeId) (e : CasterEntry)
    (h : ∀ s d, pairCount reg s d ≤ 1) (s2 d2 : TypeId) :
    pairCount (ValueCaster.declare reg src dest e) s2 d2 ≤ 1 := by
  by_cases hs : s2 = src
  · subst hs
    by_cases hd : d2 = dest
    · subst hd
      unfold pairCount
      rw [getCasts_declare_self, filter_add_caster_self _ _ _ (h s2 d2)]
      simp
    · unfold pairCount
      rw [getCasts_declare_self, filter_add_caster_other _ _ _ _ hd]
      exact h s2 d2
  · unfold pairCount
    rw [getCasts_declare_other _ _ _ _ _ hs]
    exact h s2 d2

/-- One call of the declaration phase: declare the given caster for the
given (source, destination) pair. -/
structure Decl where
  src : TypeId
  dest : TypeId
  entry : CasterEntry

/-- A whole sequence of ValueCaster::declare calls, applied in order. -/
def applyDecls (reg : Registry) (l : List Decl) : Registry :=
  l.foldl (fun r d => ValueCaster.declare r d.src d.dest d.entry) reg

theorem find?_append_of_some {α : Type} (p : α → Bool) (l1 l2 : List α) (a : α)
    (h : l1.find? p = some a) : (l1 ++ l2).find? p = some a := by
  induction l1 with
  | nil => simp [List.find?] at h
  | cons hd tl ih =>
      by_cases hp : p hd
      · simp [List.find?, hp] at h ⊢
        exact h
      · simp only [List.find?, Bool.not_eq_true] at h
        simp only [hp] at h
        simp only [List.cons_append, List.find?, hp]
        exact ih h

theorem find?_append_of_none {α : Type} (p : α → Bool) (l1 l2 : List α)
    (h : l1.find? p = none) : (l1 ++ l2).find? p = l2.find? p := by
  induction l1 with
  | nil => simp
  | cons hd tl ih =>
      by_cases hp : p hd
      · simp [List.find?, hp] at h
      · simp only [List.find?, Bool.not_eq_true] at h
        simp only [hp] at h
        simp only [List.cons_append, List.find?, hp]
        exact ih h

/-- Helper: whether an Except value is an error. -/
def isErr {α : Type} : Except KiErr α → Bool
  | Except.error _ => true
  | Except.ok _ => false

/-- Sample base class descriptor. -/
def descX : TypeDesc := TypeDesc.root "X" Kind.CLASS true

/-- Sample derived class descriptor whose base is descX. -/
def descY : TypeDesc := TypeDesc.derived "Y" Kind.CLASS true descX

/-- Sample primitive descriptor, not an IClassType instance. -/
def descP : TypeDesc := TypeDesc.root "Int" Kind.PRIMITIVE false


/-- C1: inherits(candidate, ancestor) returns true exactly when the ancestor
occurs on the base chain of the candidate (the candidate itself, or any
descriptor reached through the single-parent base links), so the test is
reflexive and false once the chain is exhausted; in particular for a derived
type Y whose base is X, inherits(Y, X) is true and inherits(X, Y) is
false. -/
theorem c1_inherits_base_chain (c a X Y : TypeDesc) (h : Y.base = some X) :
    (c.inherits a = true ↔ a ∈ c.baseChain) ∧
    Y.inherits X = true ∧ X.inherits Y = false := by
  refine ⟨inherits_iff_mem_baseChain c a, ?_, ?_⟩
  · cases Y with
    | root n k cl => simp [TypeDesc.base] at h
    | derived n k cl b =>
        simp only [TypeDesc.base, Option.some.injEq] at h
        subst h
        simp only [TypeDesc.inherits]
        split
        · rfl
        · exact inherits_self b
  · cases Y with
    | root n k cl => simp [TypeDesc.base] at h
    | derived n k cl b =>
        simp only [TypeDesc.base, Option.some.injEq] at h
        subst h
        cases hb : b.inherits (TypeDesc.derived n k cl b) with
        | false => rfl
        | true =>
            exfalso
            have hmem := (inherits_iff_mem_baseChain b (TypeDesc.derived n k cl b)).mp hb
            have hle := mem_baseChain_depth_le b (TypeDesc.derived n k cl b) hmem
            simp only [TypeDesc.depth] at hle
            omega

/-- Witness for C1 at the concrete descriptors descX and descY. -/
theorem c1_witness :
    descY.base = some descX ∧
    ((descY.inherits descX = true ↔ descX ∈ descY.baseChain) ∧
      descY.inherits descX = true ∧ descX.inherits descY = false) :=
  ⟨rfl, c1_inherits_base_chain descY descX descX descY rfl⟩

/-- C8: constructing a class-like descriptor with a base raises an error
whenever the base does not have kind CLASS or is not an IClassType instance;
when construction with a base succeeds, the base has kind CLASS with the
IClassType capability and is recorded as the base of the new descriptor, and
a descriptor constructed without a base has no base. -/
theorem c8_construct_base (name : String) (b : TypeDesc) :
    ((b.kind ≠ Kind.CLASS ∨ b.isClassType = false) →
      isErr (IClassType.construct name (some b)) = true) ∧
    (∀ t, IClassType.construct name (some b) = Except.ok t →
      b.kind = Kind.CLASS ∧ b.isClassType = true ∧
      t.base = some b ∧ t.kind = Kind.CLASS) ∧
    (∀ t, IClassType.construct name none = Except.ok t → t.base = none) := by
  refine ⟨?_, ?_, ?_⟩
  · rintro (h | h)
    · simp [IClassType.construct, h, isErr]
    · by_cases hk : b.kind = Kind.CLASS
      · simp [IClassType.construct, hk, h, isErr]
      · simp [IClassType.construct, hk, isErr]
  · intro t ht
    by_cases hk : b.kind = Kind.CLASS
    · by_cases hc : b.isClassType = true
      · simp only [IClassType.construct, hk] at ht
        rw [hc] at ht
        simp only [ne_eq, not_true_eq_false, Bool.true_eq_false, if_false,
          Except.ok.injEq] at ht
        subst ht
        exact ⟨hk, hc, rfl, rfl⟩
      · have hc2 : b.isClassType = false := by simpa using hc
        simp [IClassType.construct, hk, hc2] at ht
    · simp [IClassType.construct, hk] at ht
  · intro t ht
    simp only [IClassType.construct, Except.ok.injEq] at ht
    subst ht
    rfl

/-- Witness for C8: a primitive base is rejected, a class base is accepted
and recorded, and a baseless construction yields a descriptor without a
base. -/
theorem c8_witness :
    isErr (IClassType.construct "W" (some descP)) = true ∧
    (descX.kind = Kind.CLASS ∧ descX.isClassType = true ∧
      (TypeDesc.derived "W" Kind.CLASS true descX).base = some descX ∧
      (TypeDesc.derived "W" Kind.CLASS true descX).kind = Kind.CLASS) ∧
    (TypeDesc.root "W" Kind.CLASS true).base = none :=
  ⟨(c8_construct_base "W" descP).1 (Or.inl (by decide)),
   (c8_construct_base "W" descX).2.1 (TypeDesc.derived "W" Kind.CLASS true descX) rfl,
   (c8_construct_base "W" descX).2.2 (TypeDesc.root "W" Kind.CLASS true) rfl⟩

/-- Counterexample for C2 as stated: with expected the class descriptor descX,
actual the primitive descriptor descP and allow_inheritance true, the call
neither returns normally nor raises the type-mismatch error naming both
types; it raises the bad-cast error of the failed dynamic_cast instead. -/
theorem c2_counterexample :
    assert_type_match descX descP true = Except.error KiErr.badCast ∧
    assert_type_match descX descP true ≠
      Except.error (KiErr.typeMismatch (TypeDesc.name descX) (TypeDesc.name descP) true) ∧
    assert_type_match descX descP true ≠ Except.ok () := by
  have hres : assert_type_match descX descP true = Except.error KiErr.badCast := rfl
  refine ⟨hres, ?_, ?_⟩
  · intro h
    rw [hres] at h
    simp at h
  · intro h
    rw [hres] at h
    simp at h

/-- C2 amended: assert_type_match returns normally iff actual is identical to
expected or allow_inheritance is true, expected has kind CLASS, actual is an
IClassType instance and actual inherits from expected; when allow_inheritance
is true, expected has kind CLASS and actual is not an IClassType instance the
raised error is the bad-cast error of the failed dynamic_cast; in every other
failing case the raised error is the type mismatch error naming both
types. -/
theorem c2_assert_type_match (e a : TypeDesc) (ai : Bool) (hwa : a.wf) :
    (assert_type_match e a ai = Except.ok () ↔
      (e = a ∨ (ai = true ∧ e.kind = Kind.CLASS ∧
        a.isClassType = true ∧ a.inherits e = true))) ∧
    (ai = true → e.kind = Kind.CLASS → a.isClassType = false →
      assert_type_match e a ai = Except.error KiErr.badCast) ∧
    (¬(ai = true ∧ e.kind = Kind.CLASS ∧ a.isClassType = false) →
      assert_type_match e a ai ≠ Except.ok () →
      assert_type_match e a ai =
        Except.error (KiErr.typeMismatch e.name a.name ai)) := by
  by_cases h1 : ai = true ∧ e.kind = Kind.CLASS
  · by_cases h2 : a.isClassType = true
    · by_cases h3 : a.inherits e = true
      · have hres : assert_type_match e a ai = Except.ok () := by
          simp [assert_type_match, h1, h2, h3]
        refine ⟨?_, ?_, ?_⟩
        · exact iff_of_true hres (Or.inr ⟨h1.1, h1.2, h2, h3⟩)
        · intro _ _ hc
          rw [hc] at h2
          exact Bool.noConfusion h2
        · intro _ hne
          exact absurd hres hne
      · have hne : e ≠ a := by
          intro hh
          subst hh
          exact h3 (inherits_self e)
        have hres : assert_type_match e a ai =
            Except.error (KiErr.typeMismatch e.name a.name ai) := by
          simp [assert_type_match, h1, h2, h3, assert_type_match_tail, hne]
        refine ⟨?_, ?_, ?_⟩
        · refine iff_of_false (by simp [hres]) ?_
          rintro (hc | hc)
          · exact absurd hc hne
          · exact absurd hc.2.2.2 h3
        · intro _ _ hc
          rw [hc] at h2
          exact Bool.noConfusion h2
        · intro _ _
          exact hres
    · have hres : assert_type_match e a ai = Except.error KiErr.badCast := by
        simp [assert_type_match, h1, h2]
      refine ⟨?_, ?_, ?_⟩
      · refine iff_of_false (by simp [hres]) ?_
        rintro (hc | hc)
        · subst hc
          exact h2 (hwa.mp h1.2)
        · exact absurd hc.2.2.1 h2
      · intro _ _ _
        exact hres
      · intro hno _
        exact absurd ⟨h1.1, h1.2, by simpa using h2⟩ hno
  · by_cases h4 : e = a
    · have hres : assert_type_match e a ai = Except.ok () := by
        unfold assert_type_match assert_type_match_tail
        rw [if_neg h1, if_pos h4]
      refine ⟨?_, ?_, ?_⟩
      · exact iff_of_true hres (Or.inl h4)
      · intro hai hk _
        exact absurd ⟨hai, hk⟩ h1
      · intro _ hne
        exact absurd hres hne
    · have hres : assert_type_match e a ai =
          Except.error (KiErr.typeMismatch e.name a.name ai) := by
        unfold assert_type_match assert_type_match_tail
        rw [if_neg h1, if_neg h4]
      refine ⟨?_, ?_, ?_⟩
      · refine iff_of_false (by simp [hres]) ?_
        rintro (hc | hc)
        · exact absurd hc h4
        · exact absurd ⟨hc.1, hc.2.1⟩ h1
      · intro hai hk _
        exact absurd ⟨hai, hk⟩ h1
      · intro _ _
        exact hres

/-- Witness for C2 amended: a derived class value matches its base class when
inheritance is allowed. -/
theorem c2_witness : assert_type_match descX descY true = Except.ok () :=
  (c2_assert_type_match descX descY true ⟨fun _ => rfl, fun _ => rfl⟩).1.mpr
    (Or.inr ⟨rfl, rfl, rfl, by decide⟩)

/-- C3: Value::as returns a new owning Value copying the held value when the
held type already is the requested type; otherwise it invokes exactly the
caster registered from the held type to the requested type, and when no
caster is registered for that pair it fails with a cast error carrying both
type identities; every successful result is an owning Value. -/
theorem c3_value_as (reg : Registry) (T : TypeId) (v : Value) :
    (v.type_hash = T → Value.as reg T v = Except.ok (Value.make_value T v.val)) ∧
    (v.type_hash ≠ T → ∀ e, lookupCaster reg v.type_hash T = some e →
      Value.as reg T v = invoke_caster T e v) ∧
    (v.type_hash ≠ T → lookupCaster reg v.type_hash T = none →
      Value.as reg T v = Except.error (KiErr.castError v.type_hash T)) ∧
    (∀ r, Value.as reg T v = Except.ok r → r.owned = true) := by
  refine ⟨?_, ?_, ?_, ?_⟩
  · intro h
    simp [Value.as, h]
  · intro h e he
    have hb : (v.type_hash == T) = false := by simpa using h
    unfold lookupCaster at he
    simp [Value.as, hb, ValueCaster.cast_value, he]
  · intro h he
    have hb : (v.type_hash == T) = false := by simpa using h
    unfold lookupCaster at he
    simp [Value.as, hb, ValueCaster.cast_value, he]
  · intro r hr
    unfold Value.as at hr
    split at hr
    · injection hr with h2
      subst h2
      rfl
    · unfold ValueCaster.cast_value at hr
      split at hr
      · unfold invoke_caster at hr
        split at hr
        · injection hr with h2
          subst h2
          rfl
        · exact Except.noConfusion hr
      · exact Except.noConfusion hr

/-- Witness for C3: a same-type request yields an owning copy, and a request
for an unregistered destination yields the cast error. -/
theorem c3_witness :
    Value.as { tables := [] } 2 { val := 7, owned := false, type_hash := 2 } =
      Except.ok (Value.make_value 2 7) ∧
    Value.as { tables := [] } 3 { val := 7, owned := false, type_hash := 2 } =
      Except.error (KiErr.castError 2 3) :=
  ⟨(c3_value_as { tables := [] } 2 { val := 7, owned := false, type_hash := 2 }).1 rfl,
   (c3_value_as { tables := [] } 3 { val := 7, owned := false, type_hash := 2 }).2.2.1
      (by decide) rfl⟩

/-- C4: on an owning Value holding the requested type, release returns the
raw value and turns the Value into a non-owning reference, and a second
release on the result fails; release fails on any Value that does not own its
storage, and on any owning Value whose held type differs from the requested
one. -/
theorem c4_value_release (T : TypeId) (v : Value) :
    (v.owned = true → v.type_hash = T →
      Value.release T v = Except.ok (v.val, { v with owned := false }) ∧
      Value.release T { v with owned := false } =
        Except.error (KiErr.runtimeError "Cannot release ownership from a reference Value.")) ∧
    (v.owned = false →
      Value.release T v =
        Except.error (KiErr.runtimeError "Cannot release ownership from a reference Value.")) ∧
    (v.owned = true → v.type_hash ≠ T →
      Value.release T v =
        Except.error (KiErr.runtimeError "Invalid call to Value::get<T>.")) := by
  refine ⟨?_, ?_, ?_⟩
  · intro ho ht
    constructor
    · simp [Value.release, Value.is_reference, Value.is, ho, ht]
    · simp [Value.release, Value.is_reference]
  · intro ho
    simp [Value.release, Value.is_reference, ho]
  · intro ho ht
    have hb : (v.type_hash == T) = false := by simpa using ht
    simp [Value.release, Value.is_reference, Value.is, ho, hb]

/-- Witness for C4: releasing an owning Value succeeds and a second release
of the resulting reference fails. -/
theorem c4_witness :
    Value.release 1 { val := 3, owned := true, type_hash := 1 } =
      Except.ok (3, { val := 3, owned := false, type_hash := 1 }) ∧
    Value.release 1 { val := 3, owned := false, type_hash := 1 } =
      Except.error (KiErr.runtimeError "Cannot release ownership from a reference Value.") :=
  (c4_value_release 1 { val := 3, owned := true, type_hash := 1 }).1 rfl rfl

/-- C9: Value::get leaves the Value, and in particular its ownership state,
unchanged whether it succeeds or fails, and it fails exactly when the held
type differs from the requested type. -/
theorem c9_value_get (T : TypeId) (v : Value) :
    (Value.get T v).2 = v ∧
    (Value.get T v).2.owned = v.owned ∧
    (isErr (Value.get T v).1 = true ↔ v.type_hash ≠ T) := by
  by_cases h : v.type_hash = T
  · have hb : (v.type_hash == T) = true := by simpa using h
    simp [Value.get, Value.is, hb, isErr, h]
  · have hb : (v.type_hash == T) = false := by simpa using h
    simp [Value.get, Value.is, hb, isErr, h]

/-- Witness for C9 at a concrete owning Value and a mismatched type
request. -/
theorem c9_witness :
    (Value.get 1 { val := 3, owned := true, type_hash := 2 }).2 =
      { val := 3, owned := true, type_hash := 2 } ∧
    (Value.get 1 { val := 3, owned := true, type_hash := 2 }).2.owned =
      ({ val := 3, owned := true, type_hash := 2 } : Value).owned ∧
    (isErr (Value.get 1 { val := 3, owned := true, type_hash := 2 }).1 = true ↔
      ({ val := 3, owned := true, type_hash := 2 } : Value).type_hash ≠ 1) :=
  c9_value_get 1 { val := 3, owned := true, type_hash := 2 }

/-- C6: the integral primitive codec writes each value with exactly the fixed
per-type bit width and reads with that same width, so under the bit-level
stream contract a read after a write returns the value originally written,
for every value and every per-type width. -/
theorem c6_primitive_codec (bitsize : Nat) (value : Int) (stream rest : Tape) :
    PrimitiveTypeWriter.write_to bitsize stream value = stream ++ [(bitsize, value)] ∧
    PrimitiveTypeReader.read_from bitsize
      (PrimitiveTypeWriter.write_to bitsize [] value ++ rest) = (value, rest) := by
  constructor
  · rfl
  · simp [PrimitiveTypeWriter.write_to, PrimitiveTypeReader.read_from,
      BitStream.write, BitStream.read]

/-- C5: the write loop of IClassType visits the declared properties exactly
in declaration order, and the read loop visits the identical sequence in the
same order, as exhibited by instrumented properties that record their visit
on the stream: both loops leave exactly the declared name sequence behind. -/
theorem c5_property_order (names : List String) (tr : List String) :
    IClassType.write_to { properties := names.map traceProp } tr = tr ++ names ∧
    IClassType.read_from { properties := names.map traceProp } tr = tr ++ names := by
  induction names generalizing tr with
  | nil => simp [IClassType.write_to, IClassType.read_from]
  | cons n ns ih =>
      have hw := (ih (tr ++ [n])).1
      have hr := (ih (tr ++ [n])).2
      simp only [IClassType.write_to, IClassType.read_from, List.map_cons,
        List.foldl_cons, traceProp] at hw hr ⊢
      constructor
      · rw [hw]
        simp
      · rw [hr]
        simp

theorem pairCount_applyDecls_le (l : List Decl) (reg : Registry)
    (h : ∀ s2 d2, pairCount reg s2 d2 ≤ 1) (s d : TypeId) :
    pairCount (applyDecls reg l) s d ≤ 1 := by
  induction l generalizing reg with
  | nil => exact h s d
  | cons x xs ih =>
      exact ih (ValueCaster.declare reg x.src x.dest x.entry)
        (fun s2 d2 => pairCount_declare_le reg x.src x.dest x.entry h s2 d2)

theorem lookupCaster_applyDecls (l : List Decl) (reg : Registry) (s d : TypeId) :
    lookupCaster (applyDecls reg l) s d =
      match l.reverse.find? (fun x => x.src == s && x.dest == d) with
      | some x => some x.entry
      | none => lookupCaster reg s d := by
  induction l generalizing reg with
  | nil => simp [applyDecls]
  | cons x xs ih =>
      have hstep : applyDecls reg (x :: xs) =
          applyDecls (ValueCaster.declare reg x.src x.dest x.entry) xs := rfl
      rw [hstep, ih, List.reverse_cons]
      cases hfind : xs.reverse.find? (fun y => y.src == s && y.dest == d) with
      | some y =>
          rw [find?_append_of_some _ _ _ _ hfind]
      | none =>
          rw [find?_append_of_none _ _ _ hfind]
          by_cases hx : (x.src == s && x.dest == d) = true
          · have hfx : List.find? (fun y => y.src == s && y.dest == d) [x] = some x := by
              simp only [List.find?, hx]
            rw [hfx]
            simp only [Bool.and_eq_true, beq_iff_eq] at hx
            obtain ⟨hs, hd⟩ := hx
            subst hs
            subst hd
            exact lookupCaster_declare_self reg x.src x.dest x.entry
          · have hxf : (x.src == s && x.dest == d) = false := by simpa using hx
            have hfx : List.find? (fun y => y.src == s && y.dest == d) [x] = none := by
              simp only [List.find?, hxf]
            rw [hfx]
            simp only [Bool.and_eq_true, beq_iff_eq] at hx
            apply lookupCaster_declare_other
            by_cases hs : s = x.src
            · right
              intro hdd
              exact hx ⟨hs.symm, hdd.symm⟩
            · left
              exact hs

/-- C7: after any sequence of declare calls starting from a registry with at
most one caster per pair, the registry still holds at most one conversion
function per (source, destination) pair, and looking a pair up yields the
most recently declared caster for that pair (or the original entry when the
sequence never declared the pair), so each declaration replaces the prior
one. -/
theorem c7_declare_replaces (reg : Registry) (l : List Decl) (s d : TypeId)
    (h : ∀ s2 d2, pairCount reg s2 d2 ≤ 1) :
    (lookupCaster (applyDecls reg l) s d =
      match l.reverse.find? (fun x => x.src == s && x.dest == d) with
      | some x => some x.entry
      | none => lookupCaster reg s d) ∧
    pairCount (applyDecls reg l) s d ≤ 1 :=
  ⟨lookupCaster_applyDecls l reg s d, pairCount_applyDecls_le l reg h s d⟩

/-- Two successive declarations for the same pair, used by the C7 witness. -/
def sampleDecls : List Decl :=
  [{ src := 1, dest := 2, entry := value_caster_mk 1 (fun x => x) },
   { src := 1, dest := 2, entry := value_caster_mk 1 (fun x => x + 1) }]

/-- Witness for C7: after declaring twice for the pair (1, 2) on the empty
registry, the lookup yields the second caster and the pair holds at most one
caster. -/
theorem c7_witness :
    lookupCaster (applyDecls { tables := [] } sampleDecls) 1 2 =
      some (value_caster_mk 1 (fun x => x + 1)) ∧
    pairCount (applyDecls { tables := [] } sampleDecls) 1 2 ≤ 1 := by
  have h0 : ∀ s2 d2, pairCount { tables := [] } s2 d2 ≤ 1 := by
    intro s2 d2
    simp [pairCount, getCasts, findTable?]
  have hc := c7_declare_replaces { tables := [] } sampleDecls 1 2 h0
  exact ⟨hc.1, hc.2⟩

/-- C10: the static two-type ValueCaster::cast overload first declares the
default static_cast caster for the pair and then casts, so its result is
never a missing-caster cast error, for any registry state and any incoming
Value; when the incoming Value holds the source type the result is the owning
converted Value; by contrast, the lookup-by-type path raises a cast error
carrying both identities whenever the pair is unregistered. -/
theorem c10_static_cast_never_missing (reg : Registry) (src dest : TypeId)
    (conv : RtVal → RtVal) (v : Value) :
    (∀ a b, (ValueCaster.cast reg src dest conv v).2 ≠
      Except.error (KiErr.castError a b)) ∧
    (v.type_hash = src →
      (ValueCaster.cast reg src dest conv v).2 =
        Except.ok (Value.make_value dest (conv v.val))) ∧
    (lookupCaster reg src dest = none →
      ValueCaster.cast_by_src reg src dest v =
        Except.error (KiErr.castError src dest)) := by
  have hlook : lookupCast
      (getCasts (ValueCaster.declare reg src dest (value_caster_mk src conv)) src) dest
      = some (value_caster_mk src conv) := by
    rw [getCasts_declare_self]
    exact lookupCast_add_self _ _ _
  have hres0 : (ValueCaster.cast reg src dest conv v).2 =
      ValueCaster.cast_value src
        (getCasts (ValueCaster.declare reg src dest (value_caster_mk src conv)) src)
        dest v := rfl
  have hres : (ValueCaster.cast reg src dest conv v).2 =
      invoke_caster dest (value_caster_mk src conv) v := by
    rw [hres0]
    unfold ValueCaster.cast_value
    rw [hlook]
  refine ⟨?_, ?_, ?_⟩
  · intro a b hcontra
    rw [hres] at hcontra
    unfold invoke_caster at hcontra
    by_cases hsrc : (v.type_hash == (value_caster_mk src conv).src) = true
    · rw [if_pos hsrc] at hcontra
      simp at hcontra
    · rw [if_neg hsrc] at hcontra
      simp at hcontra
  · intro h
    rw [hres]
    unfold invoke_caster
    have hb : (v.type_hash == (value_caster_mk src conv).src) = true := by
      simp [value_caster_mk, h]
    rw [if_pos hb]
    rfl
  · intro h
    unfold ValueCaster.cast_by_src
    cases hf : findTable? reg src with
    | none => rfl
    | some casts =>
        have hn : lookupCast casts dest = none := by
          unfold lookupCaster getCasts at h
          rw [hf] at h
          simpa using h
        simp only [ValueCaster.cast_value, hn]

/-- Witness for C10: on the empty registry the static two-type cast of a
Value holding the source type succeeds, while the lookup-by-type path fails
with a cast error for the same unregistered pair. -/
theorem c10_witness :
    (ValueCaster.cast { tables := [] } 1 2 (fun x => x)
      { val := 5, owned := true, type_hash := 1 }).2 =
      Except.ok (Value.make_value 2 5) ∧
    ValueCaster.cast_by_src { tables := [] } 1 2
      { val := 5, owned := true, type_hash := 1 } =
      Except.error (KiErr.castError 1 2) := by
  have hc := c10_static_cast_never_missing { tables := [] } 1 2 (fun x => x)
    { val := 5, owned := true, type_hash := 1 }
  exact ⟨hc.2.1 rfl, hc.2.2 rfl⟩
